import Mathlib

/-!
# DynoEngine host program (`projects/DynoEngine/src/main.c`)

A shallow embedding of the three C functions of `main.c` (`reload_script`,
`execute_js`, `main`) over an explicit model of the process state: the live
interpreter instances and the trace of the calls the host has made.

The Lua and Duktape libraries are external to the repository.  Their behaviour
is a parameter, `Env`: what a file compiles to, what running a compiled
function does to the globals, what evaluating a JavaScript string does to a
heap, and whether the allocator can provide another interpreter instance while
a given number of instances is live.  The stack discipline of the C API
(`lua_getglobal`, `lua_pcall`, `lua_tostring`, `lua_pop`, `luaL_dofile`,
`duk_peval_string`, ...) follows the reference manuals.

Limits of the model.  It covers executions in which every library call
returns; a script that never returns or that terminates the process is outside
it.  Output performed by a script itself is not recorded: the trace holds the
calls made by the host.  Metatables are not modelled: the globals of an
instance are the values `lua_getglobal` pushes.  A call through a null or
closed handle, or a pop from an empty stack, is undefined behaviour and ends
the run with a `Fault`.
-/

namespace DynoEngine

/-! ## Lua values and instances -/

/-- Values of the Lua language as the C API sees them. -/
inductive LuaValue
  | nil
  | boolean (b : Bool)
  | number (n : Int)
  | string (s : String)
  | func (id : Nat)
  | table (id : Nat)
  deriving DecidableEq

/-- Name of the type of a value, as `luaL_typename` gives it. -/
def LuaValue.typeName : LuaValue → String
  | .nil => "nil"
  | .boolean _ => "boolean"
  | .number _ => "number"
  | .string _ => "string"
  | .func _ => "function"
  | .table _ => "table"

/-- The constant `LUA_OK` of `lua.h`. -/
def LUA_OK : Nat := 0

/-- The constant `LUA_YIELD` of `lua.h`. -/
def LUA_YIELD : Nat := 1

/-- The constant `LUA_ERRRUN` of `lua.h`. -/
def LUA_ERRRUN : Nat := 2

/-- The constant `LUA_ERRSYNTAX` of `lua.h`. -/
def LUA_ERRSYNTAX : Nat := 3

/-- The constant `LUA_ERRMEM` of `lua.h`. -/
def LUA_ERRMEM : Nat := 4

/-- The constant `LUA_ERRERR` of `lua.h` (its value in Lua 5.4; of the values of the error
codes only their being different from `LUA_OK` matters below). -/
def LUA_ERRERR : Nat := 5

/-- The constant `LUA_ERRFILE` of `lauxlib.h` (`LUA_ERRERR + 1`). -/
def LUA_ERRFILE : Nat := LUA_ERRERR + 1

/-- The constant `LUA_MULTRET` of `lua.h`. -/
def LUA_MULTRET : Int := -1

/-- The ways a load or a protected call can fail. -/
inductive LuaErr
  | runtime
  | compile
  | memory
  | handler
  | file
  deriving DecidableEq

/-- Status code reported for a failure; never `LUA_OK`. -/
def LuaErr.status : LuaErr → Nat
  | .runtime => LUA_ERRRUN
  | .compile => LUA_ERRSYNTAX
  | .memory => LUA_ERRMEM
  | .handler => LUA_ERRERR
  | .file => LUA_ERRFILE

/-- What `lua_tostring` returns for a value: its text for a string or a number, null otherwise. -/
def LuaValue.tostring? : LuaValue → Option String
  | .string s => some s
  | .number n => some (toString n)
  | _ => none

/-- What `lua_tostring` leaves in the stack slot: a number is converted to a string in place. -/
def LuaValue.converted : LuaValue → LuaValue
  | .number n => .string (toString n)
  | v => v

/-- Global namespace of a Lua instance: the value `lua_getglobal` pushes for a name. -/
abbrev Globals := String → LuaValue

/-- One Lua instance (`lua_State`): its globals and its value stack, top first. -/
structure LuaState where
  globals : Globals
  stack : List LuaValue

/-- What running a Lua function did: the globals it left and how it ended. -/
structure CallOutcome where
  globals : Globals
  result : Except (LuaErr × LuaValue) (List LuaValue)

/-! ## Duktape heaps -/

/-- A JavaScript value, represented by the string `duk_safe_to_string` coerces it to. -/
abbrev DukValue := String

/-- One Duktape heap: the bindings of its global object and its value stack, top first. -/
structure DukHeap where
  bindings : List (String × DukValue)
  stack : List DukValue
  deriving DecidableEq

/-- What evaluating a JavaScript string did: the bindings it left and the value it
completed with (`ok`) or threw (`error`). -/
structure EvalOutcome where
  bindings : List (String × DukValue)
  result : Except DukValue DukValue

/-! ## The environment -/

/-- Behaviour of the two libraries and of the allocator. -/
structure Env where
  /-- Whether another interpreter instance can be allocated while `n` are live.  Both
  `luaL_newstate` and `duk_create_heap_default` return null when it cannot. -/
  memAvail : Nat → Bool
  /-- Bindings `luaL_openlibs` installs. -/
  stdlib : Globals
  /-- Result of `luaL_loadfile`: the compiled chunk (a function) or an error message. -/
  loadfile : String → Except (LuaErr × String) Nat
  /-- Running function `id` on arguments in given globals. -/
  call : Nat → List LuaValue → Globals → CallOutcome
  /-- Bindings of the global object of a heap made by `duk_create_heap_default`. -/
  dukInit : List (String × DukValue)
  /-- Evaluating a source string in a heap with given bindings. -/
  eval : String → List (String × DukValue) → EvalOutcome

/-! ## Process state, events, faults -/

/-- Calls the host makes, in order, with the handle they target and what they returned. -/
inductive Event
  | luaL_newstate (ret : Option Nat)
  | luaL_openlibs (L : Nat)
  | lua_close (L : Nat)
  | luaL_dofile (L : Nat) (filename : String) (ret : Nat)
  | lua_tostring (L : Nat) (ret : Option String)
  | lua_pop (L : Nat)
  | lua_getglobal (L : Nat) (name : String)
  | lua_pcall (L : Nat) (ret : Nat)
  | duk_create_heap_default (ret : Option Nat)
  | duk_peval_string (ctx : Nat) (code : String) (rc : Nat)
  | duk_safe_to_string (ctx : Nat) (ret : String)
  | duk_pop (ctx : Nat)
  | duk_destroy_heap (ctx : Nat)
  | fprintf_stderr (text : String)
  deriving DecidableEq

/-- Undefined behaviour of the C program. -/
inductive Fault
  | nullHandle
  | deadHandle (id : Nat)
  | stackUnderflow (id : Nat)
  deriving DecidableEq

/-- State of the process: the live instances of both kinds, keyed by an
identifier that is never reused, and the calls made so far. -/
structure World where
  nextId : Nat
  lua : List (Nat × LuaState)
  duk : List (Nat × DukHeap)
  trace : List Event

/-- The process at start. -/
def World.init : World := ⟨0, [], [], []⟩

/-- Number of live interpreter instances. -/
def World.liveCount (w : World) : Nat := w.lua.length + w.duk.length

/-- Every live instance was allocated earlier. -/
def World.WF (w : World) : Prop :=
  (∀ p ∈ w.lua, p.1 < w.nextId) ∧ (∀ p ∈ w.duk, p.1 < w.nextId)

/-- Result of running a piece of the program: it returned, or it hit undefined behaviour. -/
inductive Res (α : Type)
  | ok (a : α) (w : World)
  | fault (f : Fault) (w : World)

/-- The process state a run ended in. -/
def Res.world {α : Type} : Res α → World
  | .ok _ w => w
  | .fault _ w => w

/-- Whether the run returned to its caller. -/
def Res.returned {α : Type} : Res α → Bool
  | .ok _ _ => true
  | .fault _ _ => false

/-- A piece of the program: a function of the process state. -/
def Run (α : Type) : Type := World → Res α

/-- Sequencing: a fault ends the run. -/
def Res.andThen {α β : Type} : Res α → (α → Run β) → Res β
  | .ok a w, f => f a w
  | .fault e w, _ => .fault e w

instance : Monad Run where
  pure a := fun w => .ok a w
  bind m f := fun w => (m w).andThen f

/-- Record a call. -/
def emit (e : Event) : Run Unit :=
  fun w => .ok () { w with trace := w.trace ++ [e] }

/-- Stop on undefined behaviour. -/
def crash {α : Type} (f : Fault) : Run α :=
  fun w => .fault f w

/-- Events a run added to the trace of the state it started from. -/
def newEvents {α : Type} (w : World) (r : Res α) : List Event :=
  r.world.trace.drop w.trace.length

/-- Lines written to standard error among some events. -/
def stderrOf (es : List Event) : List String :=
  es.filterMap fun e => match e with
    | .fprintf_stderr t => some t
    | _ => none

/-! ## The Lua C API -/

/-- Replace the state stored for an identifier. -/
def putState {σ : Type} (id : Nat) (st : σ) (l : List (Nat × σ)) : List (Nat × σ) :=
  l.map fun p => if p.1 = id then (id, st) else p

/-- Remove an identifier. -/
def dropState {σ : Type} (id : Nat) (l : List (Nat × σ)) : List (Nat × σ) :=
  l.filter fun p => p.1 ≠ id

/-- Dereference a `lua_State *`: a fault when it is null or was closed. -/
def derefLua (L : Option Nat) : Run (Nat × LuaState) := fun w =>
  match L with
  | none => .fault .nullHandle w
  | some id =>
    match w.lua.lookup id with
    | none => .fault (.deadHandle id) w
    | some st => .ok (id, st) w

/-- Write back the state of a live Lua instance. -/
def storeLua (id : Nat) (st : LuaState) : Run Unit :=
  fun w => .ok () { w with lua := putState id st w.lua }

/-- The C function `luaL_newstate`: a new instance with no globals and an empty stack, or null
when memory is exhausted. -/
def luaL_newstate (env : Env) : Run (Option Nat) := fun w =>
  if env.memAvail w.liveCount then
    .ok (some w.nextId)
      { w with nextId := w.nextId + 1,
               lua := (w.nextId, ⟨fun _ => .nil, []⟩) :: w.lua,
               trace := w.trace ++ [.luaL_newstate (some w.nextId)] }
  else
    .ok none { w with trace := w.trace ++ [.luaL_newstate none] }

/-- Globals after the standard libraries were opened over `g`. -/
def openlibsGlobals (env : Env) (g : Globals) : Globals :=
  fun k => if env.stdlib k = .nil then g k else env.stdlib k

/-- The C function `luaL_openlibs`. -/
def luaL_openlibs (env : Env) (L : Option Nat) : Run Unit := do
  let (id, st) ← derefLua L
  storeLua id { st with globals := openlibsGlobals env st.globals }
  emit (.luaL_openlibs id)

/-- The C function `lua_close`. -/
def lua_close (L : Option Nat) : Run Unit := do
  let (id, _) ← derefLua L
  fun w => .ok () { w with lua := dropState id w.lua, trace := w.trace ++ [.lua_close id] }

/-- Results of a call adjusted to `nresults`, last result on top. -/
def adjustResults (nresults : Int) (rets : List LuaValue) : List LuaValue :=
  if nresults = LUA_MULTRET then rets.reverse
  else ((rets ++ List.replicate (nresults.toNat - rets.length) LuaValue.nil).take
    nresults.toNat).reverse

/-- The effect of `lua_pcall(L, nargs, nresults, 0)` on one instance; `none` when the stack
holds fewer than `nargs + 1` values. -/
def LuaState.pcall (env : Env) (nargs : Nat) (nresults : Int) (st : LuaState) :
    Option (Nat × LuaState) :=
  match st.stack.drop nargs with
  | [] => none
  | f :: rest =>
    match f with
    | .func id =>
      let out := env.call id (st.stack.take nargs).reverse st.globals
      match out.result with
      | .ok rets => some (LUA_OK, ⟨out.globals, adjustResults nresults rets ++ rest⟩)
      | .error (e, v) => some (e.status, ⟨out.globals, v :: rest⟩)
    | v =>
      some (LUA_ERRRUN,
        ⟨st.globals, .string ("attempt to call a " ++ v.typeName ++ " value") :: rest⟩)

/-- The effect of `luaL_loadfile(L, filename)` on one instance. -/
def LuaState.loadfile (env : Env) (filename : String) (st : LuaState) : Nat × LuaState :=
  match env.loadfile filename with
  | .ok chunk => (LUA_OK, { st with stack := .func chunk :: st.stack })
  | .error (e, msg) => (e.status, { st with stack := .string msg :: st.stack })

/-- The effect of the macro `luaL_dofile(L, fn)`, which is
`(luaL_loadfile(L, fn) || lua_pcall(L, 0, LUA_MULTRET, 0))`, on one instance: the value
is `1` when either call returns a nonzero status and `0` otherwise, and the call is
made only when the load returned `0`. -/
def LuaState.dofile (env : Env) (filename : String) (st : LuaState) : Option (Nat × LuaState) :=
  match st.loadfile env filename with
  | (s, st1) =>
    if s ≠ 0 then some (1, st1)
    else
      match st1.pcall env 0 LUA_MULTRET with
      | none => none
      | some (s2, st2) => some (if s2 ≠ 0 then 1 else 0, st2)

/-- The macro `luaL_dofile`. -/
def luaL_dofile (env : Env) (L : Option Nat) (filename : String) : Run Nat := do
  let (id, st) ← derefLua L
  match st.dofile env filename with
  | none => crash (.stackUnderflow id)
  | some (rc, st1) =>
    storeLua id st1
    emit (.luaL_dofile id filename rc)
    pure rc

/-- The C function `lua_getglobal`. -/
def lua_getglobal (L : Option Nat) (name : String) : Run Unit := do
  let (id, st) ← derefLua L
  storeLua id { st with stack := st.globals name :: st.stack }
  emit (.lua_getglobal id name)

/-- The C function `lua_pcall` with no message handler. -/
def lua_pcall (env : Env) (L : Option Nat) (nargs : Nat) (nresults : Int) : Run Nat := do
  let (id, st) ← derefLua L
  match st.pcall env nargs nresults with
  | none => crash (.stackUnderflow id)
  | some (s, st1) =>
    storeLua id st1
    emit (.lua_pcall id s)
    pure s

/-- The C macro `lua_tostring(L, -1)`: the text of the value at the top of the stack, or null. -/
def lua_tostring (L : Option Nat) : Run (Option String) := do
  let (id, st) ← derefLua L
  match st.stack with
  | [] => crash (.stackUnderflow id)
  | v :: rest =>
    storeLua id { st with stack := v.converted :: rest }
    emit (.lua_tostring id v.tostring?)
    pure v.tostring?

/-- The C macro `lua_pop(L, 1)`. -/
def lua_pop (L : Option Nat) : Run Unit := do
  let (id, st) ← derefLua L
  match st.stack with
  | [] => crash (.stackUnderflow id)
  | _ :: rest =>
    storeLua id { st with stack := rest }
    emit (.lua_pop id)

/-- The text `fprintf` writes for a `%s` argument.  `lua_tostring` returns null for an error
value that is neither a string nor a number; the C libraries in common use write `(null)`
for it, and so does the model. -/
def fmtS (arg : Option String) : String := arg.getD "(null)"

/-- The C call `fprintf(stderr, ...)` with the formatted text. -/
def fprintf_stderr (text : String) : Run Unit := emit (.fprintf_stderr text)

/-! ## The Duktape C API -/

/-- Dereference a `duk_context *`. -/
def derefDuk (ctx : Option Nat) : Run (Nat × DukHeap) := fun w =>
  match ctx with
  | none => .fault .nullHandle w
  | some id =>
    match w.duk.lookup id with
    | none => .fault (.deadHandle id) w
    | some h => .ok (id, h) w

/-- Write back the state of a live heap. -/
def storeDuk (id : Nat) (h : DukHeap) : Run Unit :=
  fun w => .ok () { w with duk := putState id h w.duk }

/-- The C function `duk_create_heap_default`: a new heap, or null when memory is exhausted. -/
def duk_create_heap_default (env : Env) : Run (Option Nat) := fun w =>
  if env.memAvail w.liveCount then
    .ok (some w.nextId)
      { w with nextId := w.nextId + 1,
               duk := (w.nextId, ⟨env.dukInit, []⟩) :: w.duk,
               trace := w.trace ++ [.duk_create_heap_default (some w.nextId)] }
  else
    .ok none { w with trace := w.trace ++ [.duk_create_heap_default none] }

/-- The C function `duk_peval_string`: `0` with the completion value on the stack, or `1` with
the error on the stack. -/
def duk_peval_string (env : Env) (ctx : Option Nat) (code : String) : Run Nat := do
  let (id, h) ← derefDuk ctx
  let out := env.eval code h.bindings
  match out.result with
  | .ok v =>
    storeDuk id ⟨out.bindings, v :: h.stack⟩
    emit (.duk_peval_string id code 0)
    pure 0
  | .error e =>
    storeDuk id ⟨out.bindings, e :: h.stack⟩
    emit (.duk_peval_string id code 1)
    pure 1

/-- The C function `duk_safe_to_string(ctx, -1)`. -/
def duk_safe_to_string (ctx : Option Nat) : Run String := do
  let (id, h) ← derefDuk ctx
  match h.stack with
  | [] => crash (.stackUnderflow id)
  | v :: _ =>
    emit (.duk_safe_to_string id v)
    pure v

/-- The C function `duk_pop`. -/
def duk_pop (ctx : Option Nat) : Run Unit := do
  let (id, h) ← derefDuk ctx
  match h.stack with
  | [] => crash (.stackUnderflow id)
  | _ :: rest =>
    storeDuk id { h with stack := rest }
    emit (.duk_pop id)

/-- The C function `duk_destroy_heap`. -/
def duk_destroy_heap (ctx : Option Nat) : Run Unit := do
  let (id, _) ← derefDuk ctx
  fun w => .ok () { w with duk := dropState id w.duk, trace := w.trace ++ [.duk_destroy_heap id] }

/-! ## The program -/

/-- The C function `reload_script` (`main.c`, lines 8-18).  The in-out parameter
`lua_State **L` is the argument `L` on entry and the returned handle on exit. -/
def reload_script (env : Env) (L : Option Nat) (filename : String) : Run (Option Nat) := do
  lua_close L
  let L ← luaL_newstate env
  luaL_openlibs env L
  if (← luaL_dofile env L filename) ≠ LUA_OK then
    let msg ← lua_tostring L
    fprintf_stderr ("Error reloading script: " ++ fmtS msg ++ "\n")
    lua_pop L
  pure L

/-- The C function `execute_js` (`main.c`, lines 21-34). -/
def execute_js (env : Env) (code : String) : Run Unit := do
  let ctx ← duk_create_heap_default env
  match ctx with
  | none =>
    fprintf_stderr "Failed to create Duktape heap\n"
  | some _ =>
    if (← duk_peval_string env ctx code) ≠ 0 then
      let msg ← duk_safe_to_string ctx
      fprintf_stderr ("Error executing JavaScript: " ++ msg ++ "\n")
      duk_pop ctx
    duk_destroy_heap ctx

/-- Lines 45-49 of `main`: look up the global `interrogate` and call it. -/
def main_call (env : Env) (L : Option Nat) : Run Unit := do
  lua_getglobal L "interrogate"
  if (← lua_pcall env L 0 0) ≠ LUA_OK then
    let msg ← lua_tostring L
    fprintf_stderr ("Error calling Lua function: " ++ fmtS msg ++ "\n")
    lua_pop L

/-- Name of the script `main` loads. -/
def lua_script_name : String := "your_script.lua"

/-- The JavaScript source `main` evaluates. -/
def js_code : String := "console.log(\x27Hello from DynoEngine!\x27);"

/-- The C function `main` (`main.c`, lines 37-58); the value is the exit status. -/
def main (env : Env) : Run Int := do
  let L ← luaL_newstate env
  luaL_openlibs env L
  let L ← reload_script env L lua_script_name
  main_call env L
  execute_js env js_code
  lua_close L
  pure 0

/-! ## Observations on traces -/

/-- Events of a run of `execute_js` on `code` whose heap got identifier `h`. -/
def jsEvents (env : Env) (code : String) (h : Nat) : List Event :=
  match (env.eval code env.dukInit).result with
  | .ok _ => [.duk_create_heap_default (some h), .duk_peval_string h code 0, .duk_destroy_heap h]
  | .error e =>
    [.duk_create_heap_default (some h), .duk_peval_string h code 1, .duk_safe_to_string h e,
      .fprintf_stderr ("Error executing JavaScript: " ++ e ++ "\n"), .duk_pop h,
      .duk_destroy_heap h]

/-- What an observer of the process sees of an evaluation: whether the heap could be
built, the return code of the evaluation, and the text written to standard error.
Identifiers of instances are not observable. -/
inductive Observation
  | heapFailure
  | evalCode (rc : Nat)
  | message (text : String)
  deriving DecidableEq

/-- The observable part of an event. -/
def observe : Event → Option Observation
  | .duk_create_heap_default none => some .heapFailure
  | .duk_peval_string _ _ rc => some (.evalCode rc)
  | .fprintf_stderr t => some (.message t)
  | _ => none

/-- The instance `luaL_newstate` followed by `luaL_openlibs` gives: the standard libraries
opened over no globals, and an empty stack. -/
def freshInstance (env : Env) : LuaState :=
  ⟨openlibsGlobals env (fun _ => .nil), []⟩

/-- Events of the error report `lua_tostring`, `fprintf`, `lua_pop` on instance `id` whose
stack has `v` on top. -/
def reportEvents (title : String) (id : Nat) (v : LuaValue) : List Event :=
  [.lua_tostring id v.tostring?, .fprintf_stderr (title ++ fmtS v.tostring? ++ "\n"),
    .lua_pop id]

/-- Events of the load of `filename` into a fresh instance `id`, with its error report. -/
def loadEvents (env : Env) (filename : String) (id : Nat) : List Event :=
  match env.loadfile filename with
  | .error (_, msg) =>
    .luaL_dofile id filename 1 :: reportEvents "Error reloading script: " id (.string msg)
  | .ok chunk =>
    match (env.call chunk [] (freshInstance env).globals).result with
    | .ok _ => [.luaL_dofile id filename 0]
    | .error (_, v) => .luaL_dofile id filename 1 :: reportEvents "Error reloading script: " id v

/-- The instance `reload_script` leaves for `filename`. -/
def reloadedState (env : Env) (filename : String) : LuaState :=
  match env.loadfile filename with
  | .error _ => freshInstance env
  | .ok chunk =>
    match (env.call chunk [] (freshInstance env).globals).result with
    | .ok rets => ⟨(env.call chunk [] (freshInstance env).globals).globals, rets.reverse⟩
    | .error _ => ⟨(env.call chunk [] (freshInstance env).globals).globals, []⟩

/-- Events of the call of `interrogate` on instance `id` in state `st`, with its error report. -/
def callEvents (env : Env) (st : LuaState) (id : Nat) : List Event :=
  .lua_getglobal id "interrogate" ::
    match st.globals "interrogate" with
    | .func f =>
      match (env.call f [] st.globals).result with
      | .ok _ => [.lua_pcall id 0]
      | .error (e, v) => .lua_pcall id e.status :: reportEvents "Error calling Lua function: " id v
    | v =>
      .lua_pcall id LUA_ERRRUN :: reportEvents "Error calling Lua function: " id
        (.string ("attempt to call a " ++ v.typeName ++ " value"))

/-- The instance the call of `interrogate` leaves. -/
def calledState (env : Env) (st : LuaState) : LuaState :=
  match st.globals "interrogate" with
  | .func f => ⟨(env.call f [] st.globals).globals, st.stack⟩
  | _ => st

/-- Events of a run of `main` in which the Lua instances could be created. -/
def mainEvents (env : Env) : List Event :=
  [.luaL_newstate (some 0), .luaL_openlibs 0, .lua_close 0, .luaL_newstate (some 1),
    .luaL_openlibs 1]
  ++ loadEvents env lua_script_name 1
  ++ callEvents env (reloadedState env lua_script_name) 1
  ++ (if env.memAvail 1 then jsEvents env js_code 2
      else [.duk_create_heap_default none, .fprintf_stderr "Failed to create Duktape heap\n"])
  ++ [.lua_close 1]

/-- The steps of `main`. -/
inductive Step
  | load
  | call
  | evaluate
  | teardown
  deriving DecidableEq

/-- The step an event performs for the session whose instance is `L`: the load is the
`luaL_dofile` into it, the call the `lua_pcall` on it, the teardown its `lua_close`; the
evaluation is the construction of the heap it runs in. -/
def sessionStep (L : Nat) : Event → Option Step
  | .luaL_dofile i _ _ => if i = L then some .load else none
  | .lua_pcall i _ => if i = L then some .call else none
  | .duk_create_heap_default _ => some .evaluate
  | .lua_close i => if i = L then some .teardown else none
  | _ => none

/-- The live Lua instances after one more event. -/
def liveLuaStep (live : List Nat) : Event → List Nat
  | .luaL_newstate (some id) => id :: live
  | .lua_close id => live.filter (fun i => i ≠ id)
  | _ => live

/-- The Lua instances created and not yet closed after a sequence of events. -/
def liveLua (es : List Event) : List Nat := es.foldl liveLuaStep []

/-- At most one Lua instance is live before and after each event of `es`, starting
from `live`. -/
def oneLiveFrom (live : List Nat) : List Event → Bool
  | [] => decide (live.length ≤ 1)
  | e :: es => decide (live.length ≤ 1) && oneLiveFrom (liveLuaStep live e) es

/-- The Lua instance an API call operates on. -/
def luaTarget : Event → Option Nat
  | .luaL_openlibs L => some L
  | .lua_close L => some L
  | .luaL_dofile L _ _ => some L
  | .lua_tostring L _ => some L
  | .lua_pop L => some L
  | .lua_getglobal L _ => some L
  | .lua_pcall L _ => some L
  | _ => none

/-- Every Lua API call of `es` operates on an instance that is live when it is made,
starting from `live`. -/
def targetsLiveFrom (live : List Nat) : List Event → Bool
  | [] => true
  | e :: es =>
    (match luaTarget e with
      | some L => decide (L ∈ live)
      | none => true) && targetsLiveFrom (liveLuaStep live e) es

/-- The event neither creates nor closes a Lua instance and operates on no Lua instance
other than `L`. -/
def onlyUses (L : Nat) : Event → Bool
  | .luaL_newstate _ => false
  | .lua_close _ => false
  | e => decide (luaTarget e = none ∨ luaTarget e = some L)

/-! ## Concrete environments -/

/-- A process whose session holds one fresh instance, as in `main` before the reload. -/
def sessionWorld (env : Env) : World :=
  ⟨1, [(0, freshInstance env)], [], [.luaL_newstate (some 0), .luaL_openlibs 0]⟩

/-- A state-dependent evaluator used to exercise `execute_js`. -/
def envJs : Env where
  memAvail := fun n => decide (n < 2)
  stdlib := fun _ => .nil
  loadfile := fun _ => .error (.file, "cannot open file")
  call := fun _ _ g => ⟨g, .ok []⟩
  dukInit := []
  eval := fun code b =>
    if code = "x = 1" then ⟨("x", "1") :: b, .ok "1"⟩
    else if code = "x" then
      match b.lookup "x" with
      | some v => ⟨b, .ok v⟩
      | none => ⟨b, .error "ReferenceError: identifier \x27x\x27 undefined"⟩
    else ⟨b, .error "SyntaxError: parse error"⟩

/-- A script that assigns a global and then raises: `x = 1; error("boom")`. -/
def envHalfway : Env where
  memAvail := fun _ => true
  stdlib := fun k => if k = "print" then .func 100 else .nil
  loadfile := fun _ => .ok 0
  call := fun id _ g =>
    if id = 0 then ⟨fun k => if k = "x" then .number 1 else g k, .error (.runtime, .string "boom")⟩
    else ⟨g, .ok []⟩
  dukInit := []
  eval := fun _ b => ⟨b, .ok "undefined"⟩

/-- A script whose function raises when called: `function interrogate() error("boom") end`. -/
def envRaises : Env where
  memAvail := fun _ => true
  stdlib := fun _ => .nil
  loadfile := fun _ => .ok 0
  call := fun id _ g =>
    if id = 0 then ⟨fun k => if k = "interrogate" then .func 1 else g k, .ok []⟩
    else ⟨g, .error (.runtime, .string "boom")⟩
  dukInit := []
  eval := fun _ b => ⟨b, .ok "undefined"⟩

/-- A script whose function returns: `function interrogate() end`. -/
def envQuiet : Env where
  memAvail := fun _ => true
  stdlib := fun _ => .nil
  loadfile := fun _ => .ok 0
  call := fun id _ g =>
    if id = 0 then ⟨fun k => if k = "interrogate" then .func 1 else g k, .ok []⟩
    else ⟨g, .ok []⟩
  dukInit := []
  eval := fun _ b => ⟨b, .ok "undefined"⟩

/-! ## Basic facts -/

@[simp] theorem Run.bind_apply {α β : Type} (m : Run α) (f : α → Run β) (w : World) :
    (m >>= f) w = (m w).andThen f := rfl

@[simp] theorem Run.pure_apply {α : Type} (a : α) (w : World) :
    (pure a : Run α) w = Res.ok a w := rfl

@[simp] theorem Res.andThen_ok {α β : Type} (a : α) (w : World) (f : α → Run β) :
    (Res.ok a w).andThen f = f a w := rfl

@[simp] theorem Res.andThen_fault {α β : Type} (e : Fault) (w : World) (f : α → Run β) :
    (Res.fault e w : Res α).andThen f = Res.fault e w := rfl

@[simp] theorem Res.world_ok {α : Type} (a : α) (w : World) : (Res.ok a w).world = w := rfl

@[simp] theorem Res.world_fault {α : Type} (e : Fault) (w : World) :
    (Res.fault e w : Res α).world = w := rfl

theorem LuaErr.status_ne_zero (e : LuaErr) : e.status ≠ 0 := by
  cases e <;> simp [LuaErr.status, LUA_ERRRUN, LUA_ERRSYNTAX, LUA_ERRMEM, LUA_ERRERR, LUA_ERRFILE]

@[simp] theorem putState_nil {σ : Type} (id : Nat) (st : σ) :
    putState id st ([] : List (Nat × σ)) = [] := rfl

@[simp] theorem dropState_nil {σ : Type} (id : Nat) :
    dropState id ([] : List (Nat × σ)) = [] := rfl

@[simp] theorem putState_cons_self {σ : Type} (id : Nat) (st st0 : σ) (l : List (Nat × σ)) :
    putState id st ((id, st0) :: l) = (id, st) :: putState id st l := by
  simp [putState]

@[simp] theorem dropState_cons_self {σ : Type} (id : Nat) (st0 : σ) (l : List (Nat × σ)) :
    dropState id ((id, st0) :: l) = dropState id l := by
  simp [dropState]

@[simp] theorem lookup_cons_self {σ : Type} (id : Nat) (st0 : σ) (l : List (Nat × σ)) :
    List.lookup id ((id, st0) :: l) = some st0 := by
  simp [List.lookup_cons]

theorem putState_fresh {σ : Type} (id : Nat) (st : σ) (l : List (Nat × σ))
    (h : ∀ p ∈ l, p.1 < id) : putState id st l = l := by
  induction l with
  | nil => rfl
  | cons p l ih =>
    have hp : p.1 ≠ id := Nat.ne_of_lt (h p (List.mem_cons_self _ _))
    have hl : ∀ q ∈ l, q.1 < id := fun q hq => h q (List.mem_cons_of_mem _ hq)
    have := ih hl
    simp only [putState] at this ⊢
    simp [hp, this]

theorem dropState_fresh {σ : Type} (id : Nat) (l : List (Nat × σ))
    (h : ∀ p ∈ l, p.1 < id) : dropState id l = l := by
  simp only [dropState, List.filter_eq_self]
  intro p hp
  simpa using Nat.ne_of_lt (h p hp)

theorem mem_dropState {σ : Type} (id : Nat) (l : List (Nat × σ)) (p : Nat × σ)
    (h : p ∈ dropState id l) : p ∈ l := by
  simp only [dropState, List.mem_filter] at h
  exact h.1

theorem lookup_dropState_self {σ : Type} (id : Nat) (l : List (Nat × σ)) :
    (dropState id l).lookup id = none := by
  induction l with
  | nil => rfl
  | cons p l ih =>
    obtain ⟨k, v⟩ := p
    by_cases hk : k = id
    · subst hk
      simpa using ih
    · have hk2 : (id == k) = false := by simpa using fun h => hk h.symm
      simp only [dropState, ne_eq, decide_not] at ih ⊢
      simp [List.filter_cons, hk, List.lookup_cons, hk2, ih]

theorem lookup_putState {σ : Type} (id : Nat) (st st0 : σ) (l : List (Nat × σ))
    (h : l.lookup id = some st0) : (putState id st l).lookup id = some st := by
  induction l with
  | nil => simp at h
  | cons p l ih =>
    obtain ⟨k, v⟩ := p
    by_cases hk : k = id
    · subst hk
      simp
    · have hk2 : (id == k) = false := by simpa using fun h => hk h.symm
      simp only [List.lookup_cons, hk2] at h
      simp only [putState] at ih ⊢
      simp [hk, List.lookup_cons, hk2, ih h]

theorem putState_putState {σ : Type} (id : Nat) (st st1 : σ) (l : List (Nat × σ)) :
    putState id st (putState id st1 l) = putState id st l := by
  simp only [putState, List.map_map]
  apply List.map_congr_left
  intro p _
  by_cases hk : p.1 = id <;> simp [hk]

theorem mem_of_lookup {σ : Type} (id : Nat) (st : σ) (l : List (Nat × σ))
    (h : l.lookup id = some st) : (id, st) ∈ l := by
  induction l with
  | nil => simp at h
  | cons p l ih =>
    obtain ⟨k, v⟩ := p
    by_cases hk : id = k
    · subst hk
      simp at h
      simp [h]
    · have hk2 : (id == k) = false := by simpa using hk
      simp only [List.lookup_cons, hk2] at h
      exact List.mem_cons_of_mem _ (ih h)

@[simp] theorem newEvents_append {α : Type} (w : World) (a : α) (n : Nat)
    (lua : List (Nat × LuaState)) (duk : List (Nat × DukHeap)) (es : List Event) :
    newEvents w (Res.ok a ⟨n, lua, duk, w.trace ++ es⟩) = es := by
  simp [newEvents]

@[simp] theorem newEvents_append_fault {α : Type} (w : World) (f : Fault) (n : Nat)
    (lua : List (Nat × LuaState)) (duk : List (Nat × DukHeap)) (es : List Event) :
    newEvents w (Res.fault f ⟨n, lua, duk, w.trace ++ es⟩ : Res α) = es := by
  simp [newEvents]

theorem World.init_WF : World.init.WF := by
  simp [World.WF, World.init]

theorem sessionWorld_WF (env : Env) : (sessionWorld env).WF := by
  simp [sessionWorld, World.WF]

/-! ## What the three functions do -/

/-- What a run of `execute_js` does to a well-formed process state. -/
theorem execute_js_run (env : Env) (code : String) (w : World) (hwf : w.WF) :
    execute_js env code w = Res.ok ()
      (if env.memAvail w.liveCount then
        ⟨w.nextId + 1, w.lua, w.duk, w.trace ++ jsEvents env code w.nextId⟩
      else
        ⟨w.nextId, w.lua, w.duk, w.trace ++ [.duk_create_heap_default none,
          .fprintf_stderr "Failed to create Duktape heap\n"]⟩) := by
  have h1 := fun st => putState_fresh w.nextId st w.duk hwf.2
  have h2 := dropState_fresh w.nextId w.duk hwf.2
  simp only [execute_js, duk_create_heap_default, Run.bind_apply]
  split
  · cases h : (env.eval code env.dukInit).result <;>
      simp [duk_peval_string, derefDuk, storeDuk, emit, duk_safe_to_string, fprintf_stderr,
        duk_pop, duk_destroy_heap, jsEvents, h, h1, h2]
  · simp [fprintf_stderr, emit]

/-- What `reload_script` does to a well-formed process state in which its handle is live. -/
theorem reload_script_run (env : Env) (filename : String) (w : World) (id : Nat)
    (st0 : LuaState) (hwf : w.WF) (hlive : w.lua.lookup id = some st0) :
    reload_script env (some id) filename w =
      if env.memAvail ((dropState id w.lua).length + w.duk.length) then
        Res.ok (some w.nextId)
          ⟨w.nextId + 1, (w.nextId, reloadedState env filename) :: dropState id w.lua, w.duk,
            w.trace ++ ([.lua_close id, .luaL_newstate (some w.nextId), .luaL_openlibs w.nextId]
              ++ loadEvents env filename w.nextId)⟩
      else
        Res.fault .nullHandle
          ⟨w.nextId, dropState id w.lua, w.duk,
            w.trace ++ [.lua_close id, .luaL_newstate none]⟩ := by
  have hf : ∀ p ∈ dropState id w.lua, p.1 < w.nextId :=
    fun p hp => hwf.1 p (mem_dropState id w.lua p hp)
  have h1 := fun st => putState_fresh w.nextId st (dropState id w.lua) hf
  simp only [reload_script, lua_close, derefLua, hlive, luaL_newstate, Run.bind_apply,
    Res.andThen_ok, World.liveCount]
  split
  · cases hl : env.loadfile filename with
    | error e =>
      obtain ⟨e, msg⟩ := e
      simp [luaL_openlibs, derefLua, storeLua, emit, luaL_dofile, LuaState.dofile,
        LuaState.loadfile, hl, LuaErr.status_ne_zero, LUA_OK, lua_tostring, fprintf_stderr,
        lua_pop, crash, h1, loadEvents, reloadedState, freshInstance, reportEvents,
        LuaValue.tostring?, LuaValue.converted]
    | ok chunk =>
      cases hc : (env.call chunk [] (openlibsGlobals env fun _ => LuaValue.nil)).result with
      | error e =>
        obtain ⟨e, v⟩ := e
        simp [luaL_openlibs, derefLua, storeLua, emit, luaL_dofile, LuaState.dofile,
          LuaState.loadfile, LuaState.pcall, hl, hc, LuaErr.status_ne_zero, LUA_OK,
          lua_tostring, fprintf_stderr,
          lua_pop, crash, h1, loadEvents, reloadedState, freshInstance, reportEvents]
      | ok rets =>
        simp [luaL_openlibs, derefLua, storeLua, emit, luaL_dofile, LuaState.dofile,
          LuaState.loadfile, LuaState.pcall, hl, hc, LUA_OK, adjustResults, LUA_MULTRET,
          h1, loadEvents, reloadedState, freshInstance]
  · simp [luaL_openlibs, derefLua]

/-- What the call of `interrogate` does when its handle is live. -/
theorem main_call_run (env : Env) (w : World) (id : Nat) (st : LuaState)
    (hlive : w.lua.lookup id = some st) :
    main_call env (some id) w =
      Res.ok () ⟨w.nextId, putState id (calledState env st) w.lua, w.duk,
        w.trace ++ callEvents env st id⟩ := by
  have hp := fun a b => lookup_putState id a b w.lua
  simp only [main_call, lua_getglobal, derefLua, hlive, Run.bind_apply, Res.andThen_ok, storeLua,
    emit, lua_pcall]
  rw [lookup_putState id _ st w.lua hlive]
  cases hv : st.globals "interrogate" with
  | func f =>
    cases hc : (env.call f [] st.globals).result with
    | error e =>
      obtain ⟨e, v⟩ := e
      simp [LuaState.pcall, hv, hc, storeLua, emit, LuaErr.status_ne_zero, LUA_OK, lua_tostring,
        derefLua, lookup_putState id _ st w.lua hlive, putState_putState, fprintf_stderr,
        lua_pop, callEvents, calledState, reportEvents]
    | ok rets =>
      simp [LuaState.pcall, hv, hc, storeLua, emit, LUA_OK, adjustResults, LUA_MULTRET,
        putState_putState, callEvents, calledState]
  | _ =>
    simp [LuaState.pcall, hv, storeLua, emit, LUA_OK, LUA_ERRRUN, lua_tostring,
        derefLua, lookup_putState id _ st w.lua hlive, putState_putState, fprintf_stderr,
        lua_pop, callEvents, calledState, reportEvents, LuaValue.typeName, LuaValue.tostring?,
        LuaValue.converted]

/-- What a run of `main` does. -/
theorem main_run (env : Env) :
    main env World.init =
      if env.memAvail 0 then
        Res.ok 0 ⟨if env.memAvail 1 then 3 else 2, [], [], mainEvents env⟩
      else
        Res.fault .nullHandle ⟨0, [], [], [.luaL_newstate none]⟩ := by
  by_cases h0 : env.memAvail 0 = true
  · have hw1 : (⟨1, [(0, freshInstance env)], [], [.luaL_newstate (some 0), .luaL_openlibs 0]⟩ :
        World).WF := by simp [World.WF]
    have hr := reload_script_run env lua_script_name _ 0 (freshInstance env) hw1 (by simp)
    simp [h0] at hr
    have hc := main_call_run env
      ⟨1 + 1, [(1, reloadedState env lua_script_name)], [],
        [.luaL_newstate (some 0), .luaL_openlibs 0] ++
          ([.lua_close 0, .luaL_newstate (some 1), .luaL_openlibs 1] ++
            loadEvents env lua_script_name 1)⟩ 1 (reloadedState env lua_script_name) (by simp)
    simp at hc
    have hj := execute_js_run env js_code
      ⟨1 + 1, putState 1 (calledState env (reloadedState env lua_script_name))
          [(1, reloadedState env lua_script_name)], [],
        [.luaL_newstate (some 0), .luaL_openlibs 0] ++
          ([.lua_close 0, .luaL_newstate (some 1), .luaL_openlibs 1] ++
            loadEvents env lua_script_name 1) ++
          callEvents env (reloadedState env lua_script_name) 1⟩ (by simp [World.WF])
    simp [World.liveCount] at hj
    simp only [main, luaL_newstate, World.init, World.liveCount, h0, luaL_openlibs, derefLua,
      storeLua, emit, Run.bind_apply, Res.andThen_ok, List.length_nil, if_true,
      lookup_cons_self, putState_cons_self, putState_nil, List.nil_append, List.cons_append,
      Run.pure_apply]
    rw [show (⟨openlibsGlobals env fun _ => LuaValue.nil, []⟩ : LuaState) =
        freshInstance env from rfl, hr]
    simp only [Res.andThen_ok, Run.bind_apply, hc, hj]
    by_cases h1 : env.memAvail 1 = true
    · simp [h1, lua_close, derefLua, mainEvents]
    · simp [h1, lua_close, derefLua, mainEvents]
  · simp [main, luaL_newstate, World.init, World.liveCount, h0, luaL_openlibs, derefLua]

/-- When the first `luaL_newstate` returns null, `main` passes it to `luaL_openlibs`. -/
theorem main_null_state (env : Env) (h0 : env.memAvail 0 = false) :
    main env World.init = Res.fault .nullHandle ⟨0, [], [], [.luaL_newstate none]⟩ := by
  simp [main_run, h0]

/-! ## The segments of the trace of `main` -/

theorem onlyUses_reportEvents (title : String) (L : Nat) (v : LuaValue) :
    ∀ e ∈ reportEvents title L v, onlyUses L e = true := by
  simp [reportEvents, onlyUses, luaTarget]

theorem onlyUses_loadEvents (env : Env) (filename : String) (L : Nat) :
    ∀ e ∈ loadEvents env filename L, onlyUses L e = true := by
  unfold loadEvents
  split
  · simp [reportEvents, onlyUses, luaTarget]
  · split <;> simp [reportEvents, onlyUses, luaTarget]

theorem onlyUses_callEvents (env : Env) (st : LuaState) (L : Nat) :
    ∀ e ∈ callEvents env st L, onlyUses L e = true := by
  unfold callEvents
  split
  · split <;> simp [reportEvents, onlyUses, luaTarget]
  · simp [reportEvents, onlyUses, luaTarget]

theorem onlyUses_jsEvents (env : Env) (code : String) (h L : Nat) :
    ∀ e ∈ jsEvents env code h, onlyUses L e = true := by
  unfold jsEvents
  split <;> simp [onlyUses, luaTarget]

theorem liveLuaStep_onlyUses (L : Nat) (live : List Nat) (e : Event)
    (h : onlyUses L e = true) : liveLuaStep live e = live := by
  cases e <;> simp_all [onlyUses, liveLuaStep]

theorem foldl_onlyUses (L : Nat) (s : List Event) (h : ∀ e ∈ s, onlyUses L e = true)
    (live : List Nat) : s.foldl liveLuaStep live = live := by
  induction s generalizing live with
  | nil => rfl
  | cons e s ih =>
    simp only [List.foldl_cons]
    rw [liveLuaStep_onlyUses L live e (h e (List.mem_cons_self _ _))]
    exact ih (fun e he => h e (List.mem_cons_of_mem _ he)) live

theorem oneLiveFrom_head (live : List Nat) (t : List Event) (h : oneLiveFrom live t = true) :
    live.length ≤ 1 := by
  cases t <;> simp_all [oneLiveFrom]

theorem oneLiveFrom_onlyUses (L : Nat) (s t : List Event) (h : ∀ e ∈ s, onlyUses L e = true)
    (live : List Nat) : oneLiveFrom live (s ++ t) = oneLiveFrom live t := by
  induction s with
  | nil => rfl
  | cons e s ih =>
    simp only [List.cons_append, oneLiveFrom, List.append_eq]
    rw [liveLuaStep_onlyUses L live e (h e (List.mem_cons_self _ _)),
      ih (fun e he => h e (List.mem_cons_of_mem _ he))]
    cases ht : oneLiveFrom live t
    · simp
    · simp [oneLiveFrom_head live t ht]

theorem targetsLiveFrom_onlyUses (L : Nat) (s t : List Event)
    (h : ∀ e ∈ s, onlyUses L e = true) (live : List Nat) (hL : L ∈ live) :
    targetsLiveFrom live (s ++ t) = targetsLiveFrom live t := by
  induction s with
  | nil => rfl
  | cons e s ih =>
    have he := h e (List.mem_cons_self _ _)
    simp only [List.cons_append, targetsLiveFrom, List.append_eq]
    rw [liveLuaStep_onlyUses L live e he, ih (fun e he => h e (List.mem_cons_of_mem _ he))]
    cases e <;> simp_all [onlyUses, luaTarget]

theorem oneLiveFrom_initial (t : List Event) (live : List Nat) (h : oneLiveFrom live t = true)
    (p : List Event) (hp : p <+: t) : (p.foldl liveLuaStep live).length ≤ 1 := by
  induction t generalizing live p with
  | nil =>
    have : p = [] := List.prefix_nil.mp hp
    subst this
    simpa [oneLiveFrom] using h
  | cons e t ih =>
    cases p with
    | nil => exact oneLiveFrom_head live _ h
    | cons e2 p =>
      have h2 := List.cons_prefix_cons.mp hp
      simp only [oneLiveFrom, Bool.and_eq_true] at h
      simp only [List.foldl_cons]
      rw [h2.1]
      exact ih _ h.2 p h2.2

theorem not_mem_close_onlyUses (L id : Nat) (s : List Event)
    (h : ∀ e ∈ s, onlyUses L e = true) : Event.lua_close id ∉ s := by
  intro hm
  have := h _ hm
  simp [onlyUses] at this

theorem not_mem_newstate_onlyUses (L : Nat) (r : Option Nat) (s : List Event)
    (h : ∀ e ∈ s, onlyUses L e = true) : Event.luaL_newstate r ∉ s := by
  intro hm
  have := h _ hm
  simp [onlyUses] at this

theorem sessionStep_loadEvents (env : Env) (filename : String) (L : Nat) :
    (loadEvents env filename L).filterMap (sessionStep L) = [.load] := by
  unfold loadEvents
  split
  · simp [reportEvents, sessionStep]
  · split <;> simp [reportEvents, sessionStep]

theorem sessionStep_callEvents (env : Env) (st : LuaState) (L : Nat) :
    (callEvents env st L).filterMap (sessionStep L) = [.call] := by
  unfold callEvents
  split
  · split <;> simp [reportEvents, sessionStep]
  · simp [reportEvents, sessionStep]

theorem sessionStep_jsEvents (env : Env) (code : String) (h L : Nat) :
    (jsEvents env code h).filterMap (sessionStep L) = [.evaluate] := by
  unfold jsEvents
  split <;> simp [sessionStep]

/-- The events of `main` between the creation of the reloaded instance and its close. -/
theorem mainEvents_eq (env : Env) :
    ∃ s, (∀ e ∈ s, onlyUses 1 e = true) ∧
      s.filterMap (sessionStep 1) = [.load, .call, .evaluate] ∧
      mainEvents env =
        [.luaL_newstate (some 0), .luaL_openlibs 0, .lua_close 0, .luaL_newstate (some 1)]
          ++ (.luaL_openlibs 1 :: s) ++ [.lua_close 1] := by
  refine ⟨loadEvents env lua_script_name 1
    ++ callEvents env (reloadedState env lua_script_name) 1
    ++ (if env.memAvail 1 then jsEvents env js_code 2
        else [.duk_create_heap_default none,
          .fprintf_stderr "Failed to create Duktape heap\n"]), ?_, ?_, ?_⟩
  · intro e he
    simp only [List.mem_append] at he
    rcases he with (he | he) | he
    · exact onlyUses_loadEvents _ _ _ e he
    · exact onlyUses_callEvents _ _ _ e he
    · split at he
      · exact onlyUses_jsEvents _ _ _ _ e he
      · revert e
        simp [onlyUses, luaTarget]
  · simp only [List.filterMap_append, sessionStep_loadEvents, sessionStep_callEvents]
    split
    · simp [sessionStep_jsEvents]
    · simp [sessionStep]
  · simp [mainEvents]

theorem main_newstate_ok (env : Env) (h0 : env.memAvail 0 = true) :
    Event.luaL_newstate none ∉ (main env World.init).world.trace := by
  obtain ⟨s, hs1, -, hs3⟩ := mainEvents_eq env
  have := not_mem_newstate_onlyUses 1 none s hs1
  simp [main_run, h0, hs3, this]

theorem oneLiveFrom_mainEvents (env : Env) : oneLiveFrom [] (mainEvents env) = true := by
  obtain ⟨s, hs1, -, hs3⟩ := mainEvents_eq env
  rw [hs3]
  simp only [List.cons_append, List.nil_append, oneLiveFrom, liveLuaStep, List.append_eq]
  rw [oneLiveFrom_onlyUses 1 s _ hs1]
  simp [oneLiveFrom, liveLuaStep]

theorem liveLua_mainEvents (env : Env) : liveLua (mainEvents env) = [] := by
  obtain ⟨s, hs1, -, hs3⟩ := mainEvents_eq env
  rw [hs3]
  simp [liveLua, List.foldl_append, liveLuaStep, foldl_onlyUses 1 s hs1]

theorem count_close_mainEvents (env : Env) (id : Nat) :
    (mainEvents env).count (.lua_close id) = if id = 0 ∨ id = 1 then 1 else 0 := by
  obtain ⟨s, hs1, -, hs3⟩ := mainEvents_eq env
  have h := List.count_eq_zero.mpr (not_mem_close_onlyUses 1 id s hs1)
  rw [hs3]
  by_cases h0 : id = 0
  · subst h0
    simp [List.count_cons, h]
  · by_cases h1 : id = 1
    · subst h1
      simp [List.count_cons, h]
    · have h0' : ¬ 0 = id := fun e => h0 e.symm
      have h1' : ¬ 1 = id := fun e => h1 e.symm
      simp [List.count_cons, h, h0, h1, h0', h1']

theorem mem_newstate_mainEvents (env : Env) (id : Nat)
    (h : Event.luaL_newstate (some id) ∈ mainEvents env) : id = 0 ∨ id = 1 := by
  obtain ⟨s, hs1, -, hs3⟩ := mainEvents_eq env
  have := not_mem_newstate_onlyUses 1 (some id) s hs1
  rw [hs3] at h
  simp [this] at h
  rcases h with h | h
  · exact Or.inl h
  · exact Or.inr h

theorem targetsLiveFrom_mainEvents (env : Env) : targetsLiveFrom [] (mainEvents env) = true := by
  obtain ⟨s, hs1, -, hs3⟩ := mainEvents_eq env
  rw [hs3]
  simp only [List.cons_append, List.nil_append, targetsLiveFrom, liveLuaStep, luaTarget,
    List.append_eq]
  have hf : List.filter (fun i => decide (i ≠ 0)) [0] = [] := by decide
  simp only [hf]
  rw [targetsLiveFrom_onlyUses 1 s _ hs1 [1] (by simp)]
  simp [targetsLiveFrom, luaTarget]

/-! ## Concrete runs -/

theorem envHalfway_dofile :
    Event.luaL_dofile 1 lua_script_name 1 ∈ newEvents (sessionWorld envHalfway)
      (reload_script envHalfway (some 0) lua_script_name (sessionWorld envHalfway)) := by
  rw [reload_script_run envHalfway lua_script_name (sessionWorld envHalfway) 0
    (freshInstance envHalfway) (sessionWorld_WF _) (by simp [sessionWorld])]
  simp [envHalfway, sessionWorld, newEvents, loadEvents]

theorem envJs_dofile :
    Event.luaL_dofile 1 lua_script_name 1 ∈ newEvents (sessionWorld envJs)
      (reload_script envJs (some 0) lua_script_name (sessionWorld envJs)) := by
  rw [reload_script_run envJs lua_script_name (sessionWorld envJs) 0
    (freshInstance envJs) (sessionWorld_WF _) (by simp [sessionWorld])]
  simp [envJs, sessionWorld, newEvents, loadEvents]

theorem envQuiet_newstate :
    Event.luaL_newstate none ∉ newEvents (sessionWorld envQuiet)
      ((reload_script envQuiet (some 0) lua_script_name >>= fun L => main_call envQuiet L)
        (sessionWorld envQuiet)) := by
  simp only [Run.bind_apply]
  rw [reload_script_run envQuiet lua_script_name (sessionWorld envQuiet) 0
    (freshInstance envQuiet) (sessionWorld_WF _) (by simp [sessionWorld])]
  have hm : envQuiet.memAvail ((dropState 0 (sessionWorld envQuiet).lua).length +
      (sessionWorld envQuiet).duk.length) = true := rfl
  simp only [hm, if_true, Res.andThen_ok]
  rw [main_call_run envQuiet _ (sessionWorld envQuiet).nextId
    (reloadedState envQuiet lua_script_name) (by simp)]
  simp [newEvents, sessionWorld, loadEvents, callEvents, reloadedState, envQuiet]

/-! ## Reloading a script -/

/-- Claim C1: whenever the `luaL_dofile` of a run of `reload_script` returns a status other
than `LUA_OK`, the run writes exactly one line to standard error, of the form
`Error reloading script: ...`, returns to its caller, and returns the handle of the instance
it created in this call, which is live; the instance it was handed is another one and has
been closed. -/
theorem reload_script_load_failure (env : Env) (L : Option Nat) (filename : String) (w : World)
    (hwf : w.WF) (i rc : Nat)
    (hdo : Event.luaL_dofile i filename rc ∈ newEvents w (reload_script env L filename w))
    (hrc : rc ≠ LUA_OK) :
    ∃ w' ev text old, reload_script env L filename w = Res.ok (some w.nextId) w' ∧
      w'.trace = w.trace ++ ev ∧
      stderrOf ev = ["Error reloading script: " ++ text ++ "\n"] ∧
      L = some old ∧ old ≠ w.nextId ∧ i = w.nextId ∧
      Event.lua_close old ∈ ev ∧ w'.lua.lookup old = none ∧
      Event.luaL_newstate (some w.nextId) ∈ ev ∧ (w'.lua.lookup w.nextId).isSome = true := by
  cases L with
  | none => simp [reload_script, lua_close, derefLua, newEvents] at hdo
  | some id =>
    cases hlive : w.lua.lookup id with
    | none => simp [reload_script, lua_close, derefLua, hlive, newEvents] at hdo
    | some st0 =>
      have hid : id ≠ w.nextId := Nat.ne_of_lt (hwf.1 _ (mem_of_lookup id st0 w.lua hlive))
      have hid2 : (id == w.nextId) = false := by simpa using hid
      have hrun := reload_script_run env filename w id st0 hwf hlive
      rw [hrun] at hdo ⊢
      by_cases hm : env.memAvail ((dropState id w.lua).length + w.duk.length) = true
      · simp only [hm, if_true, newEvents_append] at hdo ⊢
        cases hl : env.loadfile filename with
        | error e =>
          obtain ⟨e, msg⟩ := e
          refine ⟨_, _, msg, id, rfl, rfl, ?_⟩
          simp [loadEvents, hl, reportEvents] at hdo
          simp [loadEvents, hl, reportEvents, stderrOf, LuaValue.tostring?, fmtS, hid, hdo.1,
            List.lookup_cons, hid2, lookup_dropState_self]
        | ok chunk =>
          cases hc : (env.call chunk [] (freshInstance env).globals).result with
          | error e =>
            obtain ⟨e, v⟩ := e
            refine ⟨_, _, fmtS v.tostring?, id, rfl, rfl, ?_⟩
            simp [loadEvents, hl, hc, reportEvents] at hdo
            simp [loadEvents, hl, hc, reportEvents, stderrOf, hid, hdo.1,
              List.lookup_cons, hid2, lookup_dropState_self]
          | ok rets =>
            simp [loadEvents, hl, hc, reportEvents] at hdo
            exact absurd hdo.2 (by simpa [LUA_OK] using hrc)
      · simp only [hm, Bool.false_eq_true, ↓reduceIte, newEvents_append_fault] at hdo
        simp at hdo

/-- Claim C1, witness: the script `x = 1; error("boom")` loaded into a session that holds one
instance. -/
theorem reload_script_load_failure_witness :
    (sessionWorld envHalfway).WF ∧
    Event.luaL_dofile 1 lua_script_name 1 ∈ newEvents (sessionWorld envHalfway)
      (reload_script envHalfway (some 0) lua_script_name (sessionWorld envHalfway)) ∧
    1 ≠ LUA_OK ∧
    ∃ w' ev text old,
      reload_script envHalfway (some 0) lua_script_name (sessionWorld envHalfway) =
        Res.ok (some (sessionWorld envHalfway).nextId) w' ∧
      w'.trace = (sessionWorld envHalfway).trace ++ ev ∧
      stderrOf ev = ["Error reloading script: " ++ text ++ "\n"] ∧
      some 0 = some old ∧ old ≠ (sessionWorld envHalfway).nextId ∧
      1 = (sessionWorld envHalfway).nextId ∧
      Event.lua_close old ∈ ev ∧ w'.lua.lookup old = none ∧
      Event.luaL_newstate (some (sessionWorld envHalfway).nextId) ∈ ev ∧
      (w'.lua.lookup (sessionWorld envHalfway).nextId).isSome = true :=
  ⟨sessionWorld_WF _, envHalfway_dofile, by decide,
    reload_script_load_failure envHalfway (some 0) lua_script_name (sessionWorld envHalfway)
      (sessionWorld_WF _) 1 1 envHalfway_dofile (by decide)⟩

/-- Claim C2, counterexample: for the script `x = 1; error("boom")` the load fails, and the
instance the session holds afterwards has the global `x` set to `1`, which a fresh instance
with the standard libraries does not have. -/
theorem reload_script_keeps_assigned_globals :
    ∃ w' st,
      reload_script envHalfway (some 0) lua_script_name (sessionWorld envHalfway) =
        Res.ok (some 1) w' ∧
      Event.luaL_dofile 1 lua_script_name 1 ∈ w'.trace ∧
      w'.lua.lookup 1 = some st ∧
      st.globals "x" = .number 1 ∧
      (freshInstance envHalfway).globals "x" = .nil ∧
      st.globals ≠ (freshInstance envHalfway).globals := by
  rw [reload_script_run envHalfway lua_script_name (sessionWorld envHalfway) 0
    (freshInstance envHalfway) (sessionWorld_WF _) (by simp [sessionWorld])]
  refine ⟨_, _, by simp [envHalfway, sessionWorld]; rfl, ?_, by simp [sessionWorld]; rfl, ?_, ?_, ?_⟩
  · simp [envHalfway, sessionWorld, loadEvents]
  · simp [reloadedState, envHalfway]
  · simp [freshInstance, openlibsGlobals, envHalfway]
  · intro h
    have := congrFun h "x"
    simp [reloadedState, envHalfway, freshInstance, openlibsGlobals] at this

/-- Claim C2, amended: whenever the `luaL_dofile` of a run of `reload_script` returns a status
other than `LUA_OK`, the session holds the new instance with an empty stack.  When the file
could not be read or compiled its globals are those of a fresh instance with the standard
libraries opened; when the chunk raised an error they are the globals the chunk left. -/
theorem reload_script_failure_state (env : Env) (L : Option Nat) (filename : String) (w : World)
    (hwf : w.WF) (i rc : Nat)
    (hdo : Event.luaL_dofile i filename rc ∈ newEvents w (reload_script env L filename w))
    (hrc : rc ≠ LUA_OK) :
    ∃ w' st, reload_script env L filename w = Res.ok (some w.nextId) w' ∧
      w'.lua.lookup w.nextId = some st ∧ st.stack = [] ∧
      (∀ e, env.loadfile filename = .error e → st.globals = (freshInstance env).globals) ∧
      (∀ chunk, env.loadfile filename = .ok chunk →
        st.globals = (env.call chunk [] (freshInstance env).globals).globals) := by
  cases L with
  | none => simp [reload_script, lua_close, derefLua, newEvents] at hdo
  | some id =>
    cases hlive : w.lua.lookup id with
    | none => simp [reload_script, lua_close, derefLua, hlive, newEvents] at hdo
    | some st0 =>
      have hrun := reload_script_run env filename w id st0 hwf hlive
      rw [hrun] at hdo ⊢
      by_cases hm : env.memAvail ((dropState id w.lua).length + w.duk.length) = true
      · simp only [hm, if_true, newEvents_append] at hdo ⊢
        refine ⟨_, reloadedState env filename, rfl, by simp, ?_⟩
        cases hl : env.loadfile filename with
        | error e =>
          simp [reloadedState, hl, freshInstance]
        | ok chunk =>
          cases hc : (env.call chunk [] (freshInstance env).globals).result with
          | error e =>
            simp [reloadedState, hl, hc]
          | ok rets =>
            simp [loadEvents, hl, hc, reportEvents] at hdo
            exact absurd hdo.2 (by simpa [LUA_OK] using hrc)
      · simp only [hm, Bool.false_eq_true, ↓reduceIte, newEvents_append_fault] at hdo
        simp at hdo

/-- Claim C2, witness of the amended statement: a file that cannot be opened. -/
theorem reload_script_failure_state_witness :
    (sessionWorld envJs).WF ∧
    Event.luaL_dofile 1 lua_script_name 1 ∈ newEvents (sessionWorld envJs)
      (reload_script envJs (some 0) lua_script_name (sessionWorld envJs)) ∧
    1 ≠ LUA_OK ∧
    ∃ w' st, reload_script envJs (some 0) lua_script_name (sessionWorld envJs) =
        Res.ok (some (sessionWorld envJs).nextId) w' ∧
      w'.lua.lookup (sessionWorld envJs).nextId = some st ∧ st.stack = [] ∧
      (∀ e, envJs.loadfile lua_script_name = .error e →
        st.globals = (freshInstance envJs).globals) ∧
      (∀ chunk, envJs.loadfile lua_script_name = .ok chunk →
        st.globals = (envJs.call chunk [] (freshInstance envJs).globals).globals) :=
  ⟨sessionWorld_WF _, envJs_dofile, by decide,
    reload_script_failure_state envJs (some 0) lua_script_name (sessionWorld envJs)
      (sessionWorld_WF _) 1 1 envJs_dofile (by decide)⟩

/-! ## Calling `interrogate` -/

/-- Claim C3: when the global `interrogate` is nil in the instance of the session, the call
step of `main` returns, its `lua_pcall` reports `LUA_ERRRUN`, and it writes exactly one line to
standard error, `Error calling Lua function: attempt to call a nil value`. -/
theorem main_call_absent (env : Env) (w : World) (id : Nat) (st : LuaState)
    (hlive : w.lua.lookup id = some st) (habs : st.globals "interrogate" = .nil) :
    ∃ w' ev, main_call env (some id) w = Res.ok () w' ∧ w'.trace = w.trace ++ ev ∧
      Event.lua_pcall id LUA_ERRRUN ∈ ev ∧
      stderrOf ev = ["Error calling Lua function: attempt to call a nil value\n"] := by
  rw [main_call_run env w id st hlive]
  refine ⟨_, _, rfl, rfl, ?_⟩
  simp [callEvents, habs, reportEvents, stderrOf, LuaValue.typeName, LuaValue.tostring?, fmtS]

/-- Claim C3, witness: a fresh instance, in which `interrogate` is nil. -/
theorem main_call_absent_witness :
    (sessionWorld envJs).lua.lookup 0 = some (freshInstance envJs) ∧
    (freshInstance envJs).globals "interrogate" = .nil ∧
    ∃ w' ev, main_call envJs (some 0) (sessionWorld envJs) = Res.ok () w' ∧
      w'.trace = (sessionWorld envJs).trace ++ ev ∧
      Event.lua_pcall 0 LUA_ERRRUN ∈ ev ∧
      stderrOf ev = ["Error calling Lua function: attempt to call a nil value\n"] :=
  ⟨by simp [sessionWorld], by simp [freshInstance, openlibsGlobals, envJs],
    main_call_absent envJs (sessionWorld envJs) 0 (freshInstance envJs) (by simp [sessionWorld])
      (by simp [freshInstance, openlibsGlobals, envJs])⟩

/-- Claim C4, counterexample: the script `function interrogate() error("boom") end` compiles
and defines `interrogate`, yet `main` writes `Error calling Lua function: boom`. -/
theorem main_reports_raising_interrogate :
    envRaises.loadfile lua_script_name = .ok 0 ∧
    (envRaises.call 0 [] (freshInstance envRaises).globals).globals "interrogate" = .func 1 ∧
    (main envRaises World.init).returned = true ∧
    stderrOf (main envRaises World.init).world.trace =
      ["Error calling Lua function: boom\n"] := by
  rw [main_run]
  refine ⟨rfl, by simp [envRaises], by simp [envRaises, Res.returned], ?_⟩
  simp [envRaises, mainEvents, loadEvents, callEvents, reloadedState, jsEvents, reportEvents,
    stderrOf, LuaValue.tostring?, fmtS]

/-- Claim C4, amended: for every script that compiles, whose chunk runs without raising and
leaves `interrogate` bound to a function, and whose call of that function returns without
raising, loading it with `reload_script` and then calling `interrogate` as `main` does returns
with both `luaL_dofile` and `lua_pcall` reporting `LUA_OK` and writes nothing to standard
error. -/
theorem load_and_call_silent (env : Env) (filename : String) (w : World) (id : Nat)
    (st0 : LuaState) (chunk f : Nat) (rets rets2 : List LuaValue)
    (hwf : w.WF) (hlive : w.lua.lookup id = some st0)
    (hnew : Event.luaL_newstate none ∉ newEvents w
      ((reload_script env (some id) filename >>= fun L => main_call env L) w))
    (hload : env.loadfile filename = .ok chunk)
    (hrun : (env.call chunk [] (freshInstance env).globals).result = .ok rets)
    (hdef : (env.call chunk [] (freshInstance env).globals).globals "interrogate" = .func f)
    (hcall : (env.call f [] (env.call chunk [] (freshInstance env).globals).globals).result
      = .ok rets2) :
    ∃ w' ev, (reload_script env (some id) filename >>= fun L => main_call env L) w
        = Res.ok () w' ∧
      w'.trace = w.trace ++ ev ∧
      Event.luaL_dofile w.nextId filename LUA_OK ∈ ev ∧
      Event.lua_pcall w.nextId LUA_OK ∈ ev ∧
      stderrOf ev = [] := by
  have hrun2 := reload_script_run env filename w id st0 hwf hlive
  simp only [Run.bind_apply] at hnew ⊢
  rw [hrun2] at hnew ⊢
  by_cases hm : env.memAvail ((dropState id w.lua).length + w.duk.length) = true
  · simp only [hm, if_true, Res.andThen_ok] at hnew ⊢
    rw [main_call_run env _ w.nextId (reloadedState env filename) (by simp)]
    refine ⟨_, [.lua_close id, .luaL_newstate (some w.nextId), .luaL_openlibs w.nextId] ++
      (loadEvents env filename w.nextId ++ callEvents env (reloadedState env filename) w.nextId),
      rfl, by simp only [List.append_assoc], ?_⟩
    simp [loadEvents, callEvents, reloadedState, hload, hrun, hdef, hcall, stderrOf, LUA_OK]
  · simp only [hm, Bool.false_eq_true, ↓reduceIte, Res.andThen_fault,
      newEvents_append_fault] at hnew
    simp at hnew

/-- Claim C4, witness of the amended statement: the script `function interrogate() end`. -/
theorem load_and_call_silent_witness :
    (sessionWorld envQuiet).WF ∧
    (sessionWorld envQuiet).lua.lookup 0 = some (freshInstance envQuiet) ∧
    Event.luaL_newstate none ∉ newEvents (sessionWorld envQuiet)
      ((reload_script envQuiet (some 0) lua_script_name >>= fun L => main_call envQuiet L)
        (sessionWorld envQuiet)) ∧
    envQuiet.loadfile lua_script_name = .ok 0 ∧
    (envQuiet.call 0 [] (freshInstance envQuiet).globals).result = .ok [] ∧
    (envQuiet.call 0 [] (freshInstance envQuiet).globals).globals "interrogate" = .func 1 ∧
    (envQuiet.call 1 [] (envQuiet.call 0 [] (freshInstance envQuiet).globals).globals).result
      = .ok [] ∧
    ∃ w' ev, (reload_script envQuiet (some 0) lua_script_name >>= fun L => main_call envQuiet L)
        (sessionWorld envQuiet) = Res.ok () w' ∧
      w'.trace = (sessionWorld envQuiet).trace ++ ev ∧
      Event.luaL_dofile (sessionWorld envQuiet).nextId lua_script_name LUA_OK ∈ ev ∧
      Event.lua_pcall (sessionWorld envQuiet).nextId LUA_OK ∈ ev ∧
      stderrOf ev = [] :=
  ⟨sessionWorld_WF _, by simp [sessionWorld], envQuiet_newstate, rfl, rfl,
    by simp [envQuiet], rfl,
    load_and_call_silent envQuiet lua_script_name (sessionWorld envQuiet) 0
      (freshInstance envQuiet) 0 1 [] [] (sessionWorld_WF _) (by simp [sessionWorld])
      envQuiet_newstate rfl rfl (by simp [envQuiet]) rfl⟩

/-! ## Evaluating JavaScript -/

/-- Claim C5: for every code string and every outcome, `execute_js` returns with the heaps of
the process as they were before the call.  When `duk_create_heap_default` returned a heap `h`,
it did so once, `duk_destroy_heap h` occurs exactly once and is the last event of the call
(so it follows the evaluation and the formatting of the error), and `h` is not live
afterwards.  A heap is destroyed only if it was created by the call, and when creation
returned null no destroy is issued. -/
theorem execute_js_heap_scoped (env : Env) (code : String) (w : World) (hwf : w.WF) :
    ∃ w' ev, execute_js env code w = Res.ok () w' ∧ w'.trace = w.trace ++ ev ∧
      w'.duk = w.duk ∧
      (∀ h, Event.duk_create_heap_default (some h) ∈ ev →
        ev.count (.duk_create_heap_default (some h)) = 1 ∧
        ev.count (.duk_destroy_heap h) = 1 ∧
        ev.getLast? = some (.duk_destroy_heap h) ∧
        (∃ rc, Event.duk_peval_string h code rc ∈ ev) ∧
        w'.duk.lookup h = none) ∧
      (∀ h, Event.duk_destroy_heap h ∈ ev → Event.duk_create_heap_default (some h) ∈ ev) ∧
      (Event.duk_create_heap_default none ∈ ev → ∀ h, Event.duk_destroy_heap h ∉ ev) := by
  rw [execute_js_run env code w hwf]
  have hfresh : ∀ a b, (a, b) ∈ w.duk → ¬ w.nextId = a :=
    fun a b hab => (Nat.ne_of_lt (hwf.2 _ hab)).symm
  by_cases hm : env.memAvail w.liveCount = true
  · simp only [hm, if_true]
    refine ⟨_, _, rfl, rfl, rfl, ?_⟩
    cases h : (env.eval code env.dukInit).result <;>
      simp [jsEvents, h, List.count_cons] <;> exact hfresh
  · simp only [hm]
    refine ⟨_, _, rfl, rfl, rfl, ?_⟩
    simp

/-- Claim C5, witness: evaluating `x = 1` in the initial process. -/
theorem execute_js_heap_scoped_witness :
    World.init.WF ∧
    ∃ w' ev, execute_js envJs "x = 1" World.init = Res.ok () w' ∧
      w'.trace = World.init.trace ++ ev ∧ w'.duk = World.init.duk ∧
      (∀ h, Event.duk_create_heap_default (some h) ∈ ev →
        ev.count (.duk_create_heap_default (some h)) = 1 ∧
        ev.count (.duk_destroy_heap h) = 1 ∧
        ev.getLast? = some (.duk_destroy_heap h) ∧
        (∃ rc, Event.duk_peval_string h "x = 1" rc ∈ ev) ∧
        w'.duk.lookup h = none) ∧
      (∀ h, Event.duk_destroy_heap h ∈ ev → Event.duk_create_heap_default (some h) ∈ ev) ∧
      (Event.duk_create_heap_default none ∈ ev → ∀ h, Event.duk_destroy_heap h ∉ ev) :=
  ⟨World.init_WF, execute_js_heap_scoped envJs "x = 1" World.init World.init_WF⟩

/-- Claim C6: `execute_js` always returns.  When heap construction fails it writes exactly the
line `Failed to create Duktape heap`; when the evaluation reports an error `e` it writes
exactly the line `Error executing JavaScript: e`; when the evaluation succeeds it writes
nothing.  So it writes to standard error if and only if construction failed or the
evaluation returned a nonzero code, and the two messages are different texts. -/
theorem execute_js_reports (env : Env) (code : String) (w : World) (hwf : w.WF) :
    ∃ w' ev, execute_js env code w = Res.ok () w' ∧ w'.trace = w.trace ++ ev ∧
      (env.memAvail w.liveCount = false →
        Event.duk_create_heap_default none ∈ ev ∧
        stderrOf ev = ["Failed to create Duktape heap\n"]) ∧
      (env.memAvail w.liveCount = true → ∀ e, (env.eval code env.dukInit).result = .error e →
        Event.duk_peval_string w.nextId code 1 ∈ ev ∧
        stderrOf ev = ["Error executing JavaScript: " ++ e ++ "\n"]) ∧
      (env.memAvail w.liveCount = true → ∀ v, (env.eval code env.dukInit).result = .ok v →
        Event.duk_peval_string w.nextId code 0 ∈ ev ∧ stderrOf ev = []) ∧
      (stderrOf ev ≠ [] ↔
        (Event.duk_create_heap_default none ∈ ev ∨
          ∃ h rc, rc ≠ 0 ∧ Event.duk_peval_string h code rc ∈ ev)) ∧
      (∀ e : String,
        "Failed to create Duktape heap\n" ≠ "Error executing JavaScript: " ++ e ++ "\n") := by
  rw [execute_js_run env code w hwf]
  have hne : ∀ e : String,
      "Failed to create Duktape heap\n" ≠ "Error executing JavaScript: " ++ e ++ "\n" := by
    intro e h
    have := congrArg (fun s => s.data.head?) h
    simp at this
  by_cases hm : env.memAvail w.liveCount = true
  · simp only [hm, if_true]
    refine ⟨_, _, rfl, rfl, ?_⟩
    cases h : (env.eval code env.dukInit).result <;>
      simp [jsEvents, h, stderrOf, hne]
  · simp only [hm]
    refine ⟨_, _, rfl, rfl, ?_⟩
    simp [stderrOf, hne]

/-- Claim C6, witness: evaluating `x`, which throws, in the initial process. -/
theorem execute_js_reports_witness :
    World.init.WF ∧
    ∃ w' ev, execute_js envJs "x" World.init = Res.ok () w' ∧
      w'.trace = World.init.trace ++ ev ∧
      (envJs.memAvail World.init.liveCount = false →
        Event.duk_create_heap_default none ∈ ev ∧
        stderrOf ev = ["Failed to create Duktape heap\n"]) ∧
      (envJs.memAvail World.init.liveCount = true →
        ∀ e, (envJs.eval "x" envJs.dukInit).result = .error e →
        Event.duk_peval_string World.init.nextId "x" 1 ∈ ev ∧
        stderrOf ev = ["Error executing JavaScript: " ++ e ++ "\n"]) ∧
      (envJs.memAvail World.init.liveCount = true →
        ∀ v, (envJs.eval "x" envJs.dukInit).result = .ok v →
        Event.duk_peval_string World.init.nextId "x" 0 ∈ ev ∧ stderrOf ev = []) ∧
      (stderrOf ev ≠ [] ↔
        (Event.duk_create_heap_default none ∈ ev ∨
          ∃ h rc, rc ≠ 0 ∧ Event.duk_peval_string h "x" rc ∈ ev)) ∧
      (∀ e : String,
        "Failed to create Duktape heap\n" ≠ "Error executing JavaScript: " ++ e ++ "\n") :=
  ⟨World.init_WF, execute_js_reports envJs "x" World.init World.init_WF⟩

/-- Claim C7: evaluation is hermetic.  For all code strings `a` and `b`, `execute_js a`
returns and leaves the heaps of the process as they were, and what is observable of
`execute_js b` run after it (whether the heap could be built, the return code of the
evaluation, the text written to standard error) is what is observable of `execute_js b` run
alone. -/
theorem execute_js_hermetic (env : Env) (a b : String) (w : World) (hwf : w.WF) :
    (execute_js env a w).returned = true ∧
    (execute_js env a w).world.duk = w.duk ∧
    (execute_js env b (execute_js env a w).world).returned = (execute_js env b w).returned ∧
    (newEvents (execute_js env a w).world
        (execute_js env b (execute_js env a w).world)).filterMap observe =
      (newEvents w (execute_js env b w)).filterMap observe := by
  have ha := execute_js_run env a w hwf
  have hb := execute_js_run env b w hwf
  by_cases hm : env.memAvail w.liveCount = true
  · simp only [hm, if_true] at ha hb
    have hwa : (⟨w.nextId + 1, w.lua, w.duk, w.trace ++ jsEvents env a w.nextId⟩ : World).WF :=
      ⟨fun p hp => Nat.lt_succ_of_lt (hwf.1 p hp), fun p hp => Nat.lt_succ_of_lt (hwf.2 p hp)⟩
    have hab := execute_js_run env b _ hwa
    have hm2 : env.memAvail (w.lua.length + w.duk.length) = true := hm
    simp only [World.liveCount, hm2, if_true] at hab
    rw [ha, hb]
    simp only [Res.world_ok]
    rw [hab]
    simp only [Res.returned, newEvents_append, true_and]
    have e1 := newEvents_append (⟨w.nextId + 1, w.lua, w.duk, w.trace ++ jsEvents env a w.nextId⟩ : World) () (w.nextId + 1 + 1) w.lua w.duk (jsEvents env b (w.nextId + 1))
    rw [e1]
    cases h : (env.eval b env.dukInit).result <;> simp [jsEvents, h, observe]
  · simp only [hm, Bool.false_eq_true, ↓reduceIte] at ha hb
    have hwa : (⟨w.nextId, w.lua, w.duk, w.trace ++ [.duk_create_heap_default none,
        .fprintf_stderr "Failed to create Duktape heap\n"]⟩ : World).WF := hwf
    have hab := execute_js_run env b _ hwa
    have hm2 : ¬ env.memAvail (w.lua.length + w.duk.length) = true := hm
    simp only [World.liveCount, hm2, Bool.false_eq_true, ↓reduceIte] at hab
    rw [ha, hb]
    simp only [Res.world_ok]
    rw [hab]
    simp only [Res.returned, newEvents_append, true_and]
    have e1 := newEvents_append (⟨w.nextId, w.lua, w.duk, w.trace ++
      [.duk_create_heap_default none, .fprintf_stderr "Failed to create Duktape heap\n"]⟩ : World)
      () w.nextId w.lua w.duk
      [.duk_create_heap_default none, .fprintf_stderr "Failed to create Duktape heap\n"]
    exact congrArg (List.filterMap observe) e1

/-- Claim C7, witness: `x` evaluated after `x = 1`, in an evaluator whose result depends on the
bindings of the heap. -/
theorem execute_js_hermetic_witness :
    World.init.WF ∧
    (execute_js envJs "x = 1" World.init).returned = true ∧
    (execute_js envJs "x = 1" World.init).world.duk = World.init.duk ∧
    (execute_js envJs "x" (execute_js envJs "x = 1" World.init).world).returned =
      (execute_js envJs "x" World.init).returned ∧
    (newEvents (execute_js envJs "x = 1" World.init).world
        (execute_js envJs "x" (execute_js envJs "x = 1" World.init).world)).filterMap observe =
      (newEvents World.init (execute_js envJs "x" World.init)).filterMap observe :=
  ⟨World.init_WF, execute_js_hermetic envJs "x = 1" "x" World.init World.init_WF⟩

/-! ## The whole program -/

/-- Claim C9: in every run of `main`, after each event at most one Lua instance is live; when
an instance is created no other is live, so `reload_script` has closed the one it was handed
before it builds the new one; every instance created is closed exactly once; and none is
live at the end. -/
theorem main_one_live_instance (env : Env) :
    (∀ p, p <+: (main env World.init).world.trace → (liveLua p).length ≤ 1) ∧
    (∀ p id, p ++ [Event.luaL_newstate (some id)] <+: (main env World.init).world.trace →
      liveLua p = []) ∧
    (∀ id, Event.luaL_newstate (some id) ∈ (main env World.init).world.trace →
      (main env World.init).world.trace.count (.lua_close id) = 1) ∧
    liveLua (main env World.init).world.trace = [] ∧
    (main env World.init).world.lua = [] := by
  have hone : oneLiveFrom [] (main env World.init).world.trace = true := by
    rw [main_run]
    split
    · exact oneLiveFrom_mainEvents env
    · simp [oneLiveFrom, liveLuaStep]
  have hpre : ∀ p, p <+: (main env World.init).world.trace → (liveLua p).length ≤ 1 :=
    fun p hp => oneLiveFrom_initial _ [] hone p hp
  refine ⟨hpre, ?_, ?_, ?_, ?_⟩
  · intro p id hp
    have := hpre _ hp
    simp only [liveLua, List.foldl_append, List.foldl_cons, List.foldl_nil, liveLuaStep,
      List.length_cons] at this
    exact List.eq_nil_of_length_eq_zero (by simpa [liveLua] using this)
  · intro id
    rw [main_run]
    split
    · intro h
      have := mem_newstate_mainEvents env id h
      simp [count_close_mainEvents, this]
    · simp
  · rw [main_run]
    split
    · exact liveLua_mainEvents env
    · simp [liveLua, liveLuaStep]
  · rw [main_run]
    split <;> rfl

/-- Claim C10: in every run of `main` in which no `luaL_newstate` returns null, `main` returns
and every Lua API call operates on an instance that was created and not yet closed; no
instance is closed twice; and after the second instance is created every Lua call, the final
`lua_close` included, operates on it. -/
theorem main_handles_valid (env : Env)
    (hnew : Event.luaL_newstate none ∉ (main env World.init).world.trace) :
    ∃ w', main env World.init = Res.ok 0 w' ∧
      targetsLiveFrom [] w'.trace = true ∧
      (∀ id, w'.trace.count (.lua_close id) ≤ 1) ∧
      w'.trace.take 4 = [.luaL_newstate (some 0), .luaL_openlibs 0, .lua_close 0,
        .luaL_newstate (some 1)] ∧
      (∀ e ∈ w'.trace.drop 4, ∀ L, luaTarget e = some L → L = 1) ∧
      w'.trace.getLast? = some (.lua_close 1) := by
  by_cases h0 : env.memAvail 0 = true
  · refine ⟨⟨if env.memAvail 1 then 3 else 2, [], [], mainEvents env⟩, by simp [main_run, h0],
      targetsLiveFrom_mainEvents env, ?_, ?_, ?_, ?_⟩
    · intro id
      simp only [count_close_mainEvents]
      split <;> simp
    · simp [mainEvents]
    · obtain ⟨s, hs1, -, hs3⟩ := mainEvents_eq env
      simp only [hs3]
      intro e he L hL
      simp at he
      rcases he with he | he | he
      · subst he
        simpa [luaTarget] using hL.symm
      · have := hs1 e he
        cases e <;> simp_all [onlyUses, luaTarget]
      · subst he
        simpa [luaTarget] using hL.symm
    · obtain ⟨s, -, -, hs3⟩ := mainEvents_eq env
      simp only [hs3]
      rw [List.getLast?_append]
      rfl
  · rw [main_run] at hnew
    simp [h0] at hnew

/-- Claim C10, witness: a run in which the load fails. -/
theorem main_handles_valid_witness :
    Event.luaL_newstate none ∉ (main envHalfway World.init).world.trace ∧
    ∃ w', main envHalfway World.init = Res.ok 0 w' ∧
      targetsLiveFrom [] w'.trace = true ∧
      (∀ id, w'.trace.count (.lua_close id) ≤ 1) ∧
      w'.trace.take 4 = [.luaL_newstate (some 0), .luaL_openlibs 0, .lua_close 0,
        .luaL_newstate (some 1)] ∧
      (∀ e ∈ w'.trace.drop 4, ∀ L, luaTarget e = some L → L = 1) ∧
      w'.trace.getLast? = some (.lua_close 1) :=
  ⟨main_newstate_ok envHalfway rfl, main_handles_valid envHalfway (main_newstate_ok envHalfway rfl)⟩

end DynoEngine
